import Mathlib

/-!
Shallow embedding of the capture-side concurrency and buffering core of the
FCamCompPhotog repository (directory `src/fcamerapro/jni`), together with
theorems checking the natural-language specification against the code.

Embedded units:
  * `TripleBuffer.h` — the single-threaded `TripleBuffer<T>` class
    (the thread-safe `TSTripleBuffer<T>` runs the identical swap bodies under
    a mutex, so the sequential semantics is the same state transformer);
  * `WorkQueue.h` — `WorkQueue<T>` with its `std::queue` payload and the
    semaphore counter, as explicit state;
  * `AsyncImageWriter.cpp` — `ImageSet::dumpToFileSystem`, the box-filter
    downsampler `DownsampleChannel`, and the file/callback event trace they
    produce;
  * `FCamInterface.cpp` — the JNI entry `setParamFloatArray` and the
    `FCamAppThread` dispatch cases `PARAM_PREVIEW_AUTO_EXPOSURE_ON` and
    `PARAM_TAKE_PICTURE`.

C `int`/`float` values that are only stored and compared are modelled as
`Int`/`Rat`.  The downsampler's index arithmetic runs in 32-bit signed
`int` in the source, so it is embedded on `Int` with explicit
twos-complement wrapping (`toInt32`): the wrap is observable inside the
domains the claims quantify over (`(srcWidth - 4) << 16` overflows for
`srcWidth >= 32772`), and the `unsigned char` store keeps its explicit
`% 256`.
-/

namespace FCamSpec

/-! ### TripleBuffer (src/fcamerapro/jni/TripleBuffer.h, lines 163-249) -/

/-- State of `TripleBuffer<T>`: the three buffer slots and the
`m_updateFrontBuffer` flag.  Slot contents stand for the C buffer
pointers/payloads. -/
structure TripleBuffer (α : Type) where
  frontBuffer : α
  backBuffer : α
  spareBuffer : α
  updateFrontBuffer : Bool
deriving Repr, DecidableEq

/-- `TripleBuffer<T>::swapFrontBuffer` (lines 198-215): if an update is
pending, exchange spare and front and clear the flag, returning the new
front; otherwise return the current front unchanged.  Returns the C return
value paired with the post state. -/
def swapFrontBuffer (b : TripleBuffer α) : α × TripleBuffer α :=
  if b.updateFrontBuffer then
    (b.spareBuffer,
      { frontBuffer := b.spareBuffer, backBuffer := b.backBuffer,
        spareBuffer := b.frontBuffer, updateFrontBuffer := false })
  else
    (b.frontBuffer, b)

/-- `TripleBuffer<T>::swapBackBuffer` (lines 232-239): exchange back and
spare, set the update flag, return the new back buffer. -/
def swapBackBuffer (b : TripleBuffer α) : α × TripleBuffer α :=
  (b.spareBuffer,
    { frontBuffer := b.frontBuffer, backBuffer := b.spareBuffer,
      spareBuffer := b.backBuffer, updateFrontBuffer := true })

/-- Producer protocol step: the producer fills the current back buffer with
`v` (writes through the pointer it owns) and then calls `swapBackBuffer`. -/
def produceStep (b : TripleBuffer α) (v : α) : TripleBuffer α :=
  (swapBackBuffer { b with backBuffer := v }).2

/-- N consecutive producer fill-then-`swapBackBuffer` rounds with no
intervening consumer call. -/
def produceRun (b : TripleBuffer α) (vs : List α) : TripleBuffer α :=
  vs.foldl produceStep b

/-- The values returned by `m` successive `swapFrontBuffer` calls. -/
def frontReads : Nat → TripleBuffer α → List α
  | 0, _ => []
  | m + 1, b => (swapFrontBuffer b).1 :: frontReads m (swapFrontBuffer b).2

/-! ### WorkQueue (src/fcamerapro/jni/WorkQueue.h) -/

/-- State of `WorkQueue<T>`: the `std::queue` contents (head first) and the
value of the counting semaphore `m_counterSem`. -/
structure WorkQueue (α : Type) where
  queue : List α
  counterSem : Nat
deriving Repr, DecidableEq

/-- The freshly constructed queue: empty, semaphore initialised to 0. -/
def WorkQueue.empty : WorkQueue α := ⟨[], 0⟩

/-- `WorkQueue<T>::produce` (lines 67-73): push at the tail and post the
semaphore, inside one critical section.  Total — never fails. -/
def produce (q : WorkQueue α) (elem : α) : WorkQueue α :=
  { queue := q.queue ++ [elem], counterSem := q.counterSem + 1 }

/-- `WorkQueue<T>::consume` (lines 86-106).  Result `some (rval, out, q2)`
gives the C return value, the out-parameter (if written) and the post
state; `none` models an execution with no immediate result (a blocking
`sem_wait` on a zero semaphore, or the undefined `front()` on an empty
`std::queue`, which no reachable state triggers). -/
def consume (q : WorkQueue α) (blocking : Bool) :
    Option (Bool × Option α × WorkQueue α) :=
  if blocking then
    if q.counterSem = 0 then none
    else
      match q.queue with
      | [] => none
      | e :: rest => some (true, some e, ⟨rest, q.counterSem - 1⟩)
  else
    if q.counterSem = 0 then some (false, none, q)
    else
      match q.queue with
      | [] => none
      | e :: rest => some (true, some e, ⟨rest, q.counterSem - 1⟩)

/-- `WorkQueue<T>::consumeAll` (lines 112-124): the sink is overwritten by
copy-assignment with the whole queue contents (its prior contents
`sink` are discarded); if the queue was non-empty it is reset together
with the semaphore.  Returns (new sink contents, post state). -/
def consumeAll (q : WorkQueue α) (_sink : List α) : List α × WorkQueue α :=
  (q.queue, if q.queue.isEmpty then q else ⟨[], 0⟩)

/-- Semaphore/queue coupling: every state reachable through `produce`,
`consume` and `consumeAll` from `WorkQueue.empty` keeps the semaphore equal
to the element count. -/
def wqInv (q : WorkQueue α) : Prop := q.counterSem = q.queue.length

/-- Helper: a whole sequence of producer calls. -/
def produceAll (q : WorkQueue α) (items : List α) : WorkQueue α :=
  items.foldl produce q

/-- Helper: repeatedly `consume (blocking := false)` until the queue reports
empty, collecting the returned items (fueled by the queue length). -/
def drainFuel : Nat → WorkQueue α → List α
  | 0, _ => []
  | n + 1, q =>
    match consume q false with
    | some (true, some e, q2) => e :: drainFuel n q2
    | _ => []

/-- Drain a queue completely with non-blocking consumes. -/
def drain (q : WorkQueue α) : List α := drainFuel q.queue.length q

/-! ### ImageSet and dumpToFileSystem (src/fcamerapro/jni/AsyncImageWriter.cpp) -/

/-- `FileFormatDescriptor::EFormats` (AsyncImageWriter.h). -/
inductive EFormats where
  | EFormatJPEG | EFormatTIFF | EFormatDNG | EFormatRAW
deriving Repr, DecidableEq

/-- `FileFormatDescriptor`: output format plus compression quality. -/
structure FileFormatDescriptor where
  format : EFormats
  quality : Int
deriving Repr, DecidableEq

/-- The per-frame data `dumpToFileSystem` reads from an `FCam::Frame`:
`valid()`, `Flash::Tags.brightness`, `gain()`, `exposure()`,
`whiteBalance()` and `Lens::Tags.focus`. -/
structure Frame where
  valid : Bool
  flashBrightness : Rat
  gain : Rat
  exposure : Int
  wb : Int
  focus : Rat
deriving Repr, DecidableEq

/-- `ImageSet`: the set id `m_fileId` and the two parallel vectors
`m_frames` / `m_frameFormat` filled by `ImageSet::add`. -/
structure ImageSet where
  fileId : Int
  frames : List Frame
  frameFormat : List FileFormatDescriptor
deriving Repr, DecidableEq

/-- `ImageSet::add` (lines 63-67): push the frame and its format. -/
def ImageSet.add (s : ImageSet) (ff : FileFormatDescriptor) (f : Frame) : ImageSet :=
  { s with frames := s.frames ++ [f], frameFormat := s.frameFormat ++ [ff] }

/-- Output file names, structurally: `sXmlName` is `img_%04i.xml` applied to
the set id, `sImageName` is `img_%04i_%02i.%s` applied to the set id, the
frame's position and the extension, `sThumbnailName` is
`thumb_%04i_%02i.jpg`. -/
inductive FileName where
  | xml (fileId : Int)
  | image (fileId : Int) (index : Nat) (ext : String)
  | thumb (fileId : Int) (index : Nat)
deriving Repr, DecidableEq

/-- `sJpegExt`. -/
def sJpegExt : String := "jpg"

/-- The C cast `(int)` applied to an exact rational: truncation toward
zero (`Int.div` rounds toward zero). -/
def cIntCast (q : Rat) : Int := Int.tdiv q.num q.den

/-- One `<image .../>` record of the xml descriptor, with the fields
printed at lines 190-211 for a valid frame at position `i`. -/
structure ImageRecord where
  name : FileName
  thumbnail : FileName
  flash : Int
  gain : Int
  exposure : Int
  wb : Int
  focus : Rat
deriving Repr, DecidableEq

/-- The record printed for valid frame `f` at position `i` of set
`fileId`: names from the set id and the frame's position, flash 0/1 from
`brightness > 0`, gain scaled by 100 and cast to int, exposure, white
balance, and focus from the frame tags. -/
def xmlImageRecord (fileId : Int) (i : Nat) (f : Frame) : ImageRecord :=
  { name := FileName.image fileId i sJpegExt
    thumbnail := FileName.thumb fileId i
    flash := if 0 < f.flashBrightness then 1 else 0
    gain := cIntCast (f.gain * 100)
    exposure := f.exposure
    wb := f.wb
    focus := f.focus }

/-- The record list of the descriptor loop (lines 184-213): walk the frames
with their position counter `i`, emitting a record for each valid frame. -/
def xmlRecords (fileId : Int) : Nat → List Frame → List ImageRecord
  | _, [] => []
  | i, f :: fs =>
    if f.valid then xmlImageRecord fileId i f :: xmlRecords fileId (i + 1) fs
    else xmlRecords fileId (i + 1) fs

/-- The xml descriptor file: its name, the `imagecount` attribute and its
records. -/
structure Descriptor where
  name : FileName
  imagecount : Nat
  records : List ImageRecord
deriving Repr, DecidableEq

/-- Observable actions of `dumpToFileSystem`, in program order: a file
write (descriptor, image, or thumbnail) or an `onFileSystemChange`
callback invocation. -/
inductive WriteEvent where
  | descriptorWrite (d : Descriptor)
  | imageWrite (name : FileName) (quality : Int)
  | thumbnailWrite (name : FileName)
  | fsChangeCallback
deriving Repr, DecidableEq

/-- `m_frames[i].valid()` count — the `icount` loop (lines 161-168). -/
def countValid (frames : List Frame) : Nat := (frames.filter (·.valid)).length

/-- The data-file loop (lines 229-258): for each valid frame, write the
image (the `switch` has a case only for JPEG), write its thumbnail, then
invoke the callback when one is installed.  The two vectors are walked in
lockstep (the C code indexes both with `i`). -/
def dumpDataFiles (fileId : Int) (cbInstalled : Bool) :
    Nat → List Frame → List FileFormatDescriptor → List WriteEvent
  | i, f :: fs, ff :: ffs =>
    (if f.valid then
      (match ff.format with
        | EFormats.EFormatJPEG =>
          [WriteEvent.imageWrite (FileName.image fileId i sJpegExt) ff.quality]
        | _ => []) ++
      [WriteEvent.thumbnailWrite (FileName.thumb fileId i)] ++
      (if cbInstalled then [WriteEvent.fsChangeCallback] else [])
    else []) ++ dumpDataFiles fileId cbInstalled (i + 1) fs ffs
  | _, _, _ => []

/-- `ImageSet::dumpToFileSystem` (lines 154-259) as its event trace:
return immediately when no frame is valid; otherwise write the descriptor,
invoke the callback when installed, then run the data-file loop.
`cbInstalled` models `onFileSystemChange != 0`. -/
def dumpToFileSystem (s : ImageSet) (cbInstalled : Bool) : List WriteEvent :=
  let icount := countValid s.frames
  if icount = 0 then []
  else
    WriteEvent.descriptorWrite
        ⟨FileName.xml s.fileId, icount, xmlRecords s.fileId 0 s.frames⟩ ::
      ((if cbInstalled then [WriteEvent.fsChangeCallback] else []) ++
        dumpDataFiles s.fileId cbInstalled 0 s.frames s.frameFormat)

/-- Recogniser for callback events. -/
def isFsCallback : WriteEvent → Bool
  | WriteEvent.fsChangeCallback => true
  | _ => false

/-- Number of `onFileSystemChange` invocations in a trace. -/
def countFsCallbacks (evs : List WriteEvent) : Nat := (evs.filter isFsCallback).length

/-- Recogniser for descriptor-file writes. -/
def isDescriptorWrite : WriteEvent → Bool
  | WriteEvent.descriptorWrite _ => true
  | _ => false

/-! ### DownsampleChannel (src/fcamerapro/jni/AsyncImageWriter.cpp, lines 46-47
and 78-111).  The C routine computes `ax`, `ay`, `tx`, `ty`, `rowindex`,
`srcindex` and `dstindex` in 32-bit signed `int`; the embedding models that
arithmetic on `Int` with explicit twos-complement wrapping (`toInt32`),
because `(srcWidth - 4) << 16` exceeds `int` for `srcWidth >= 32772`
(signed overflow; the 32-bit target wraps, which is what the model
records).  Source planes are `List Nat` of byte values (the C source
pointer is `unsigned char *`, so every read is < 256 in any real program
state); indexing outside the plane — in particular at a negative wrapped
index — yields `none`.  The destination is modelled as the sequential list
of `dest[dstindex++]` writes, which matches the C layout as long as the
`int` `dstindex` does not overflow, i.e. for destination areas below 2^31
(the theorems assume this). -/

/-- `THUMBNAIL_BLUR_RADIUS` (line 46). -/
def THUMBNAIL_BLUR_RADIUS : Nat := 5

/-- `THUMBNAIL_BLUR_NORM = 0x10000/(R*R)` (line 47), integer division. -/
def THUMBNAIL_BLUR_NORM : Nat :=
  0x10000 / (THUMBNAIL_BLUR_RADIUS * THUMBNAIL_BLUR_RADIUS)

/-- `THUMBNAIL_BLUR_RADIUS & ~1` (lines 83-84): the radius with its low bit
cleared (`~1` as a 32-bit mask). -/
def blurRadiusEven : Nat := THUMBNAIL_BLUR_RADIUS &&& 0xFFFFFFFE

/-- Twos-complement wrap to 32 bits: `(x + 2^31) % 2^32 - 2^31`. -/
def toInt32 (x : Int) : Int := (x + 2147483648) % 4294967296 - 2147483648

/-- C `<< 16` on a 32-bit int: multiply by 2^16 and wrap. -/
def shl16 (x : Int) : Int := toInt32 (x * 65536)

/-- C `>> 16` on a 32-bit int: arithmetic (sign-extending) right shift,
i.e. floor division by 2^16, the behaviour of the 32-bit target also for
negative values. -/
def sar16 (x : Int) : Int := Int.fdiv x 65536

/-- Value of the C accumulator `tx` (resp. `ty`) after `k` wrapping
`tx += ax` additions starting from 0; `accum32_zero`/`accum32_succ` below
show this is exactly the loop accumulator. -/
def accum32 (step : Int) (k : Nat) : Int := toInt32 (k * step)

/-- Fallible traversal: apply `f` to each element, failing if any
application fails.  Models a C loop whose body performs a checked read. -/
def traverseOpt (f : σ → Option β) : List σ → Option (List β)
  | [] => some []
  | a :: as =>
    match f a, traverseOpt f as with
    | some b, some bs => some (b :: bs)
    | _, _ => none

/-- Read of `src[i]` at C int index `i`: an index outside the plane
(negative ones included) has no defined value. -/
def readU8 (src : List Nat) (i : Int) : Option Nat :=
  if i < 0 then none else src.get? i.toNat

/-- The source indices read by the 5x5 blur window based at `srcindex`
(lines 93-102): `src[srcindex + x]` with `srcindex` advanced by
`srcWidth` per window row, every int addition wrapping. -/
def windowIdx (srcWidth srcindex : Int) : List Int :=
  (List.range THUMBNAIL_BLUR_RADIUS).flatMap fun y =>
    (List.range THUMBNAIL_BLUR_RADIUS).map fun (x : Nat) =>
      toInt32 (toInt32 (srcindex + y * srcWidth) + x)

/-- The blur-window sum `sum` of lines 93-102 (a sum of byte reads, which
never overflows `int`), `none` on any out-of-range read. -/
def windowSum (src : List Nat) (srcWidth srcindex : Int) : Option Nat :=
  (traverseOpt (readU8 src) (windowIdx srcWidth srcindex)).map List.sum

/-- One output pixel (line 104): `sum * THUMBNAIL_BLUR_NORM >> 16` in int
arithmetic, stored into an `unsigned char` (conversion mod 256). -/
def downsamplePixel (sum : Nat) : Nat :=
  (sar16 (toInt32 ((sum : Int) * (THUMBNAIL_BLUR_NORM : Int))) % 256).toNat

/-- One output row (the `j` loop, lines 90-106): output pixel `j` samples
the window based at `rowindex + (tx >> 16)` with `tx` accumulated by `j`
wrapping additions of `ax`. -/
def downsampleRow (src : List Nat) (srcWidth ax rowindex : Int)
    (dstWidth : Nat) : Option (List Nat) :=
  traverseOpt
    (fun j =>
      (windowSum src srcWidth (toInt32 (rowindex + sar16 (accum32 ax j)))).map
        downsamplePixel)
    (List.range dstWidth)

/-- `DownsampleChannel` (lines 78-111): row `i` uses
`rowindex = (ty >> 16) * srcWidth` (wrapping product) with `ty`
accumulated by `i` wrapping additions of `ay`; the result is the
destination plane in row-major order (`dest[dstindex++]`). -/
def DownsampleChannel (dstWidth dstHeight : Nat) (src : List Nat)
    (srcWidth srcHeight : Nat) : Option (List Nat) :=
  let ax := Int.tdiv (shl16 ((srcWidth : Int) - (blurRadiusEven : Int))) (dstWidth : Int)
  let ay := Int.tdiv (shl16 ((srcHeight : Int) - (blurRadiusEven : Int))) (dstHeight : Int)
  (traverseOpt
      (fun i => downsampleRow src (srcWidth : Int) ax
        (toInt32 (sar16 (accum32 ay i) * (srcWidth : Int))) dstWidth)
      (List.range dstHeight)).map List.flatten

/-! Overflow-free restatement of the downsampler over `Nat`, used by the
proofs: `DownsampleChannel_eq_nat` below shows it agrees with the embedding
on extents where none of the int computations wraps. -/

/-- `windowIdx` without wrapping. -/
def windowIdxN (srcWidth srcindex : Nat) : List Nat :=
  (List.range THUMBNAIL_BLUR_RADIUS).flatMap fun y =>
    (List.range THUMBNAIL_BLUR_RADIUS).map fun x => srcindex + y * srcWidth + x

/-- `windowSum` without wrapping. -/
def windowSumN (src : List Nat) (srcWidth srcindex : Nat) : Option Nat :=
  (traverseOpt (fun i => src.get? i) (windowIdxN srcWidth srcindex)).map List.sum

/-- `downsamplePixel` without wrapping. -/
def downsamplePixelN (sum : Nat) : Nat := ((sum * THUMBNAIL_BLUR_NORM) >>> 16) % 256

/-- `downsampleRow` without wrapping. -/
def downsampleRowN (src : List Nat) (srcWidth ax rowindex dstWidth : Nat) :
    Option (List Nat) :=
  traverseOpt
    (fun j => (windowSumN src srcWidth (rowindex + ((j * ax) >>> 16))).map downsamplePixelN)
    (List.range dstWidth)

/-- `DownsampleChannel` without wrapping. -/
def DownsampleChannelN (dstWidth dstHeight : Nat) (src : List Nat)
    (srcWidth srcHeight : Nat) : Option (List Nat) :=
  let ax := ((srcWidth - blurRadiusEven) <<< 16) / dstWidth
  let ay := ((srcHeight - blurRadiusEven) <<< 16) / dstHeight
  (traverseOpt
      (fun i => downsampleRowN src srcWidth ax (((i * ay) >>> 16) * srcWidth) dstWidth)
      (List.range dstHeight)).map List.flatten

/-! ### FCamInterface.cpp: parameter ids, setParamFloatArray, and the
dispatch cases of FCamAppThread used by the claims. -/

/-- Parameter identifiers (ParamSetRequest.h, lines 43-65). -/
def PARAM_SHOT : Nat := 0
def PARAM_BURST_SIZE : Nat := 2
def PARAM_OUTPUT_DIRECTORY : Nat := 5
def PARAM_PREVIEW_AUTO_EXPOSURE_ON : Nat := 12
def PARAM_TAKE_PICTURE : Nat := 17
def PARAM_FOCUS_ON_TOUCH : Nat := 18
def PARAM_WB_ON_TOUCH : Nat := 19

/-- A queued `ParamSetRequest` carrying a float-array payload. -/
structure ParamSetRequest where
  id : Nat
  floatData : List Rat
deriving Repr, DecidableEq

/-- `Java_com_nvidia_fcamerapro_FCamInterface_setParamFloatArray`
(FCamInterface.cpp, lines 525-566), acting on the request queue contents:
`PARAM_SHOT` payloads must have length 5 and the two touch parameters
length 2, otherwise the command is dropped (only an error is logged) with
nothing produced; unsupported ids are likewise only logged.  The low 16
bits of `param` select the parameter id. -/
def setParamFloatArray (queue : List ParamSetRequest) (param : Nat)
    (value : List Rat) : List ParamSetRequest :=
  let paramId := param &&& 0xffff
  if paramId = PARAM_SHOT then
    if value.length ≠ 5 then queue
    else queue ++ [⟨param, value⟩]
  else if paramId = PARAM_FOCUS_ON_TOUCH ∨ paramId = PARAM_WB_ON_TOUCH then
    if value.length ≠ 2 then queue
    else queue ++ [⟨param, value⟩]
  else queue

/-- The slice of thread state read and written by the
`PARAM_PREVIEW_AUTO_EXPOSURE_ON` dispatch case (FCamInterface.cpp, lines
1015-1026): the live auto flag and user value
(`camera->m_currentState.preview`) and the snapshot's evaluated value
(`tdata->previousState.preview.evaluated.exposure`). -/
structure AutoExposureState where
  autoExposure : Bool
  userExposure : Rat
  prevEvaluatedExposure : Rat
deriving Repr, DecidableEq

/-- The `PARAM_PREVIEW_AUTO_EXPOSURE_ON` case body.  The C condition
`!prevValue && prevValue ^ newValue != 0` parses as
`(!prevValue) && (prevValue ^ (newValue != 0))` (`!=` binds tighter than
`^`, which binds tighter than `&&`). -/
def previewAutoExposureOnStep (s : AutoExposureState) (payload : Int) :
    AutoExposureState :=
  let prevValue := s.autoExposure
  let s1 := { s with autoExposure := payload != 0 }
  if !prevValue && (xor prevValue s1.autoExposure) then
    { s1 with prevEvaluatedExposure := s1.userExposure }
  else
    { s1 with userExposure := s1.prevEvaluatedExposure }

/-- Externally visible actions of the `PARAM_TAKE_PICTURE` dispatch case:
the Java notifications and the full-resolution capture
(`camera->capture(writer)`, which builds one ImageSet and pushes it to the
writer queue). -/
inductive DispatchEvent where
  | notifyCaptureStart
  | captureAndPushImageSet
  | notifyCaptureComplete
deriving Repr, DecidableEq

/-- The slice of `FCamAppThread` state involved in `PARAM_TAKE_PICTURE`
(FCamInterface.cpp, lines 1088-1109): the writer pointer (null until the
first `PARAM_OUTPUT_DIRECTORY`, lines 1077-1084), `tdata->isCapturing`,
the event trace so far, and the capture state (opaque here — this case
never touches it). -/
structure TakePictureState (σ : Type) where
  writerInitialized : Bool
  isCapturing : Bool
  events : List DispatchEvent
  captureState : σ
deriving Repr, DecidableEq

/-- The `PARAM_TAKE_PICTURE` case body: pictures are taken only if the
writer exists and the integer payload is non-zero; then `isCapturing` is
raised, capture-start notified, the capture performed and pushed,
`isCapturing` dropped, and capture-completion notified. -/
def takePictureStep (st : TakePictureState σ) (payload : Int) :
    TakePictureState σ :=
  if st.writerInitialized then
    if payload ≠ 0 then
      { st with
        isCapturing := false
        events := st.events ++
          [DispatchEvent.notifyCaptureStart, DispatchEvent.captureAndPushImageSet,
            DispatchEvent.notifyCaptureComplete] }
    else st
  else st

/-- The `PARAM_OUTPUT_DIRECTORY` case (lines 1077-1084): one-time writer
initialisation; later occurrences are no-ops. -/
def outputDirectoryStep (st : TakePictureState σ) : TakePictureState σ :=
  if st.writerInitialized then st else { st with writerInitialized := true }

/-! ## Theorems -/

/-! ### TripleBuffer -/

/-- After any non-empty producer run the front buffer is untouched, the
spare slot holds the last filled value, and the update flag is set. -/
lemma produceRun_spec (vs : List α) (h : vs ≠ []) : ∀ b : TripleBuffer α,
    (produceRun b vs).frontBuffer = b.frontBuffer ∧
    (produceRun b vs).spareBuffer = vs.getLast h ∧
    (produceRun b vs).updateFrontBuffer = true := by
  induction vs with
  | nil => exact absurd rfl h
  | cons v vs ih =>
    intro b
    have hstep : produceRun b (v :: vs) = produceRun (produceStep b v) vs := rfl
    cases vs with
    | nil =>
      refine ⟨rfl, ?_, rfl⟩
      rfl
    | cons w ws =>
      have h2 : w :: ws ≠ [] := by simp
      obtain ⟨h1, h2', h3⟩ := ih h2 (produceStep b v)
      refine ⟨?_, ?_, ?_⟩
      · rw [hstep, h1]; rfl
      · rw [hstep, h2', List.getLast_cons h2]
      · rw [hstep, h3]

/-- With a clear update flag, repeated consumer swaps keep returning the
same front buffer. -/
lemma frontReads_of_flag_false (b : TripleBuffer α)
    (hb : b.updateFrontBuffer = false) :
    ∀ m, frontReads m b = List.replicate m b.frontBuffer := by
  have hswap : swapFrontBuffer b = (b.frontBuffer, b) := by
    simp [swapFrontBuffer, hb]
  intro m
  induction m with
  | zero => rfl
  | succ k ih => rw [frontReads, hswap, ih]; rfl

/-- C1. `TripleBuffer::swapFrontBuffer` with the pending flag set exchanges
spare and front, clears the flag, and returns the newly promoted front
buffer; with it clear it returns the unchanged front buffer.  After `N ≥ 1`
fill-then-`swapBackBuffer` rounds with no intervening consumer call, the
next `swapFrontBuffer` returns exactly the value filled at the Nth round,
and every value any subsequent `swapFrontBuffer` ever returns equals that
Nth value — so none of the `N-1` earlier filled values is ever returned. -/
theorem tripleBuffer_latest_value (α : Type) :
    (∀ b : TripleBuffer α, b.updateFrontBuffer = true →
      swapFrontBuffer b =
        (b.spareBuffer,
          { frontBuffer := b.spareBuffer, backBuffer := b.backBuffer,
            spareBuffer := b.frontBuffer, updateFrontBuffer := false })) ∧
    (∀ b : TripleBuffer α, b.updateFrontBuffer = false →
      swapFrontBuffer b = (b.frontBuffer, b)) ∧
    (∀ (b : TripleBuffer α) (vs : List α) (h : vs ≠ []),
      (swapFrontBuffer (produceRun b vs)).1 = vs.getLast h ∧
      (∀ m v, v ∈ frontReads m (produceRun b vs) → v = vs.getLast h)) := by
  refine ⟨?_, ?_, ?_⟩
  · intro b hb; simp [swapFrontBuffer, hb]
  · intro b hb; simp [swapFrontBuffer, hb]
  · intro b vs h
    obtain ⟨hf, hsp, hflag⟩ := produceRun_spec vs h b
    have h1 : (swapFrontBuffer (produceRun b vs)).1 = vs.getLast h := by
      simp [swapFrontBuffer, hflag, hsp]
    have h2 : (swapFrontBuffer (produceRun b vs)).2.updateFrontBuffer = false := by
      simp [swapFrontBuffer, hflag]
    have h3 : (swapFrontBuffer (produceRun b vs)).2.frontBuffer = vs.getLast h := by
      simp [swapFrontBuffer, hflag, hsp]
    refine ⟨h1, ?_⟩
    intro m v hv
    cases m with
    | zero => simp [frontReads] at hv
    | succ k =>
      rw [frontReads, frontReads_of_flag_false _ h2, h3] at hv
      rcases List.mem_cons.mp hv with h4 | h4
      · rw [h4, h1]
      · exact List.eq_of_mem_replicate h4

/-- Witness for C1 at a concrete run: three producer rounds, the consumer
gets the third value. -/
theorem tripleBuffer_latest_value_witness :
    (([10, 20, 30] : List Nat) ≠ []) ∧
      (swapFrontBuffer (produceRun (⟨0, 1, 2, false⟩ : TripleBuffer Nat)
        [10, 20, 30])).1 = 30 := by
  have h : ([10, 20, 30] : List Nat) ≠ [] := by decide
  refine ⟨h, ?_⟩
  rw [((tripleBuffer_latest_value Nat).2.2 ⟨0, 1, 2, false⟩ [10, 20, 30] h).1]
  rfl

/-! ### WorkQueue -/

/-- Running a whole batch of producer calls appends the batch and advances
the semaphore by its length. -/
lemma produceAll_spec (items : List α) : ∀ q : WorkQueue α,
    produceAll q items = ⟨q.queue ++ items, q.counterSem + items.length⟩ := by
  induction items with
  | nil => intro q; simp [produceAll]
  | cons a as ih =>
    intro q
    have : produceAll q (a :: as) = produceAll (produce q a) as := rfl
    rw [this, ih]
    simp [produce, Nat.add_comm, Nat.add_assoc, Nat.add_left_comm]

/-- Draining a semaphore-consistent queue by non-blocking consumes returns
its contents front first. -/
lemma drain_eq (l : List α) : drain (⟨l, l.length⟩ : WorkQueue α) = l := by
  suffices h : ∀ n l, n = List.length l → drainFuel n (⟨l, l.length⟩ : WorkQueue α) = l by
    exact h l.length l rfl
  intro n
  induction n with
  | zero => intro l hl; cases l with
    | nil => rfl
    | cons e rest => simp at hl
  | succ k ih =>
    intro l hl
    cases l with
    | nil => simp at hl
    | cons e rest =>
      have hk : k = rest.length := by simpa using hl
      have hc : consume (⟨e :: rest, (e :: rest).length⟩ : WorkQueue α) false =
          some (true, some e, ⟨rest, rest.length⟩) := by
        simp [consume]
      rw [drainFuel, hc]
      exact congrArg (List.cons e) (hk ▸ ih rest hk)

/-- C2. `produce` appends at the tail (and always succeeds); a batch of
produces followed by successive consumes returns the items in exact
production order; and a non-blocking `consume` on an empty (invariant-
consistent) queue immediately returns `false` with no out value and the
queue unchanged. -/
theorem workQueue_fifo (α : Type) :
    (∀ (q : WorkQueue α) (e : α),
      produce q e = ⟨q.queue ++ [e], q.counterSem + 1⟩) ∧
    (∀ items : List α, drain (produceAll WorkQueue.empty items) = items) ∧
    (∀ q : WorkQueue α, wqInv q → q.queue = [] →
      consume q false = some (false, none, q)) := by
  refine ⟨fun q e => rfl, ?_, ?_⟩
  · intro items
    rw [produceAll_spec items WorkQueue.empty]
    simpa [WorkQueue.empty] using drain_eq items
  · intro q hinv hq
    have hc : q.counterSem = 0 := by rw [hinv, hq]; rfl
    simp [consume, hc]

/-- Witness for C2: three items drain in FIFO order, and the empty queue
reports empty without blocking. -/
theorem workQueue_fifo_witness :
    drain (produceAll (WorkQueue.empty (α := Nat)) [1, 2, 3]) = [1, 2, 3] ∧
      (wqInv (WorkQueue.empty (α := Nat)) ∧
        consume (WorkQueue.empty (α := Nat)) false =
          some (false, none, WorkQueue.empty)) :=
  ⟨(workQueue_fifo Nat).2.1 [1, 2, 3],
    rfl, (workQueue_fifo Nat).2.2 WorkQueue.empty rfl rfl⟩

/-- C3. `consumeAll` moves the entire queue contents, in order, into the
sink (whatever the sink held before is replaced, not appended to), leaves
the queue empty, and an immediately following non-blocking `consume`
returns `false` without blocking and without change. -/
theorem workQueue_consumeAll_drains (q : WorkQueue α) (sink : List α)
    (hinv : wqInv q) :
    (consumeAll q sink).1 = q.queue ∧
    (consumeAll q sink).2.queue = [] ∧
    consume (consumeAll q sink).2 false = some (false, none, (consumeAll q sink).2) := by
  refine ⟨rfl, ?_, ?_⟩
  · rcases hq : q.queue with _ | ⟨e, rest⟩
    · simp [consumeAll, hq]
    · simp [consumeAll, hq]
  · rcases hq : q.queue with _ | ⟨e, rest⟩
    · have hc : q.counterSem = 0 := by rw [hinv, hq]; rfl
      simp [consumeAll, hq, consume, hc]
    · simp [consumeAll, hq, consume]

/-- Witness for C3 on a concrete two-element queue with a non-empty prior
sink. -/
theorem workQueue_consumeAll_drains_witness :
    wqInv (⟨[5, 6], 2⟩ : WorkQueue Nat) ∧
      (consumeAll (⟨[5, 6], 2⟩ : WorkQueue Nat) [9]).1 = [5, 6] ∧
      (consumeAll (⟨[5, 6], 2⟩ : WorkQueue Nat) [9]).2.queue = [] ∧
      consume (consumeAll (⟨[5, 6], 2⟩ : WorkQueue Nat) [9]).2 false =
        some (false, none, (consumeAll (⟨[5, 6], 2⟩ : WorkQueue Nat) [9]).2) :=
  ⟨rfl,
    (workQueue_consumeAll_drains (⟨[5, 6], 2⟩ : WorkQueue Nat) [9] rfl).1,
    (workQueue_consumeAll_drains (⟨[5, 6], 2⟩ : WorkQueue Nat) [9] rfl).2.1,
    (workQueue_consumeAll_drains (⟨[5, 6], 2⟩ : WorkQueue Nat) [9] rfl).2.2⟩

/-! ### Auto-exposure toggle (C6) -/

/-- C6. Starting with auto-exposure on and the previous-state evaluated
exposure equal to `E`, dispatching `PARAM_PREVIEW_AUTO_EXPOSURE_ON` with
value 0 copies `E` into the user exposure (and turns auto off); an
immediate re-dispatch with value 1 and no intervening edit or cycle leaves
the evaluated exposure at `E` again (the toggle-on branch writes the user
value, now `E`, back into the evaluated slot). -/
theorem autoExposure_toggle_roundtrip (s : AutoExposureState) (E : Rat)
    (hauto : s.autoExposure = true) (hE : s.prevEvaluatedExposure = E) :
    (previewAutoExposureOnStep s 0).userExposure = E ∧
    (previewAutoExposureOnStep s 0).autoExposure = false ∧
    (previewAutoExposureOnStep (previewAutoExposureOnStep s 0) 1).prevEvaluatedExposure
      = E := by
  cases s with
  | mk auto user prevEval =>
    cases hauto
    cases hE
    refine ⟨rfl, rfl, rfl⟩

/-- Witness for C6 at a concrete state. -/
theorem autoExposure_toggle_roundtrip_witness :
    ((⟨true, 7, 42⟩ : AutoExposureState).autoExposure = true ∧
      (⟨true, 7, 42⟩ : AutoExposureState).prevEvaluatedExposure = 42) ∧
    (previewAutoExposureOnStep ⟨true, 7, 42⟩ 0).userExposure = 42 ∧
    (previewAutoExposureOnStep (previewAutoExposureOnStep ⟨true, 7, 42⟩ 0)
      1).prevEvaluatedExposure = 42 :=
  ⟨⟨rfl, rfl⟩, (autoExposure_toggle_roundtrip ⟨true, 7, 42⟩ 42 rfl rfl).1,
    (autoExposure_toggle_roundtrip ⟨true, 7, 42⟩ 42 rfl rfl).2.2⟩

/-! ### setParamFloatArray payload validation (C8) -/

/-- C8. A `setParamFloatArray` request whose array length does not match
its parameter's fixed shape (5 for `PARAM_SHOT`, 2 for
`PARAM_FOCUS_ON_TOUCH`/`PARAM_WB_ON_TOUCH`) is dropped before any
mutation: the request queue is returned unchanged, so nothing ever reaches
the dispatch loop that mutates capture state. -/
theorem setParamFloatArray_malformed_dropped (queue : List ParamSetRequest)
    (param : Nat) (value : List Rat) :
    ((param &&& 0xffff) = PARAM_SHOT → value.length ≠ 5 →
      setParamFloatArray queue param value = queue) ∧
    (((param &&& 0xffff) = PARAM_FOCUS_ON_TOUCH ∨
        (param &&& 0xffff) = PARAM_WB_ON_TOUCH) → value.length ≠ 2 →
      setParamFloatArray queue param value = queue) := by
  constructor
  · intro h1 h2
    simp [setParamFloatArray, h1, h2]
  · intro h1 h2
    rcases h1 with h1 | h1 <;>
      simp [setParamFloatArray, h1, h2, PARAM_SHOT, PARAM_FOCUS_ON_TOUCH,
        PARAM_WB_ON_TOUCH]

/-- Witness for C8: a 3-element `PARAM_SHOT` payload and a 1-element
`PARAM_FOCUS_ON_TOUCH` payload are both dropped. -/
theorem setParamFloatArray_malformed_dropped_witness :
    ((PARAM_SHOT &&& 0xffff) = PARAM_SHOT ∧ ([1, 2, 3] : List Rat).length ≠ 5 ∧
      setParamFloatArray [] PARAM_SHOT [1, 2, 3] = []) ∧
    ((PARAM_FOCUS_ON_TOUCH &&& 0xffff) = PARAM_FOCUS_ON_TOUCH ∧
      ([1] : List Rat).length ≠ 2 ∧
      setParamFloatArray [] PARAM_FOCUS_ON_TOUCH [1] = []) :=
  ⟨⟨rfl, by decide,
      (setParamFloatArray_malformed_dropped [] PARAM_SHOT [1, 2, 3]).1 rfl (by decide)⟩,
    ⟨rfl, by decide,
      (setParamFloatArray_malformed_dropped [] PARAM_FOCUS_ON_TOUCH [1]).2
        (Or.inl rfl) (by decide)⟩⟩

/-! ### PARAM_TAKE_PICTURE before writer initialisation (C9) -/

/-- C9. A `PARAM_TAKE_PICTURE` command dispatched while the writer pointer
is still null is silently ignored — no capture, no ImageSet push, no
start/complete notification, capture state untouched (the whole thread
state is unchanged) — and likewise whenever the command's integer payload
is zero. -/
theorem takePicture_before_writer_ignored (σ : Type) :
    (∀ (st : TakePictureState σ) (payload : Int),
      st.writerInitialized = false → takePictureStep st payload = st) ∧
    (∀ st : TakePictureState σ, takePictureStep st 0 = st) := by
  constructor
  · intro st payload hw
    simp [takePictureStep, hw]
  · intro st
    by_cases hw : st.writerInitialized <;> simp [takePictureStep, hw]

/-- Witness for C9 on a concrete pre-initialisation state. -/
theorem takePicture_before_writer_ignored_witness :
    (⟨false, false, [], 0⟩ : TakePictureState Nat).writerInitialized = false ∧
      takePictureStep (⟨false, false, [], 0⟩ : TakePictureState Nat) 5 =
        ⟨false, false, [], 0⟩ ∧
      takePictureStep (⟨true, false, [], 0⟩ : TakePictureState Nat) 0 =
        ⟨true, false, [], 0⟩ :=
  ⟨rfl,
    (takePicture_before_writer_ignored Nat).1 ⟨false, false, [], 0⟩ 5 rfl,
    (takePicture_before_writer_ignored Nat).2 ⟨true, false, [], 0⟩⟩

/-! ### dumpToFileSystem: callback count (C4) and descriptor content (C5) -/

/-- The data-file loop invokes the callback once per valid frame (the two
vectors being in lockstep, as `ImageSet::add` keeps them). -/
lemma dumpDataFiles_callback_count (fileId : Int) :
    ∀ (fs : List Frame) (ffs : List FileFormatDescriptor) (i : Nat),
      fs.length = ffs.length →
      countFsCallbacks (dumpDataFiles fileId true i fs ffs) = countValid fs := by
  intro fs
  induction fs with
  | nil => intro ffs i _; rfl
  | cons f fs ih =>
    intro ffs i hlen
    cases ffs with
    | nil => simp at hlen
    | cons ff ffs =>
      have hlen2 : fs.length = ffs.length := by simpa using hlen
      have ih2 := ih ffs (i + 1) hlen2
      simp only [countFsCallbacks, countValid] at ih2
      by_cases hv : f.valid
      · cases hfmt : ff.format <;>
          simp [dumpDataFiles, hv, hfmt, countFsCallbacks, countValid, isFsCallback,
            List.filter_cons, List.filter_append, ih2, Nat.add_comm]
      · simp [dumpDataFiles, hv, countFsCallbacks, countValid, List.filter_cons, ih2]

/-- The data-file loop never writes a descriptor file. -/
lemma dumpDataFiles_no_descriptor (fileId : Int) (cb : Bool) :
    ∀ (fs : List Frame) (ffs : List FileFormatDescriptor) (i : Nat),
      (dumpDataFiles fileId cb i fs ffs).filter isDescriptorWrite = [] := by
  intro fs
  induction fs with
  | nil => intro ffs i; rfl
  | cons f fs ih =>
    intro ffs i
    cases ffs with
    | nil => rfl
    | cons ff ffs =>
      by_cases hv : f.valid
      · cases hfmt : ff.format <;> cases cb <;>
          simp [dumpDataFiles, hv, hfmt, isDescriptorWrite, List.filter_cons, ih ffs (i + 1)]
      · simp [dumpDataFiles, hv, List.filter_cons, ih ffs (i + 1)]

/-- C4. With a callback installed, `dumpToFileSystem` invokes it 0 times
when no frame is valid — and then writes nothing at all — and `k + 1`
times when `k ≥ 1` frames are valid: once after the descriptor and once
after each valid frame's image/thumbnail pair. -/
theorem dump_callback_count (s : ImageSet)
    (hwf : s.frames.length = s.frameFormat.length) :
    (countValid s.frames = 0 → ∀ cb, dumpToFileSystem s cb = []) ∧
    countFsCallbacks (dumpToFileSystem s true) =
      (if countValid s.frames = 0 then 0 else countValid s.frames + 1) := by
  constructor
  · intro h0 cb
    simp [dumpToFileSystem, h0]
  · by_cases h0 : countValid s.frames = 0
    · simp [dumpToFileSystem, h0, countFsCallbacks]
    · have hdf := dumpDataFiles_callback_count s.fileId s.frames s.frameFormat 0 hwf
      simp only [countFsCallbacks, countValid] at hdf
      simp only [dumpToFileSystem, if_neg h0]
      simp [countFsCallbacks, countValid, List.filter_cons, List.filter_append,
        isFsCallback, hdf, h0]

/-- Witness for C4: a set with two valid frames among three yields three
callback invocations; an all-invalid set writes nothing. -/
theorem dump_callback_count_witness :
    (let s : ImageSet :=
      ⟨7, [⟨true, 1, 2, 100, 5500, 2⟩, ⟨false, 0, 1, 1, 1, 1⟩, ⟨true, 0, 2, 50, 6000, 3⟩],
        [⟨EFormats.EFormatJPEG, 95⟩, ⟨EFormats.EFormatJPEG, 95⟩, ⟨EFormats.EFormatTIFF, 80⟩]⟩
     s.frames.length = s.frameFormat.length ∧
      countFsCallbacks (dumpToFileSystem s true) =
        (if countValid s.frames = 0 then 0 else countValid s.frames + 1) ∧
      countFsCallbacks (dumpToFileSystem s true) = 3) ∧
    (let z : ImageSet := ⟨3, [⟨false, 0, 1, 1, 1, 1⟩], [⟨EFormats.EFormatJPEG, 95⟩]⟩
     z.frames.length = z.frameFormat.length ∧ countValid z.frames = 0 ∧
      dumpToFileSystem z false = []) := by
  refine ⟨⟨rfl, (dump_callback_count _ rfl).2, ?_⟩, rfl, by decide, ?_⟩
  · rw [(dump_callback_count _ rfl).2]; decide
  · exact (dump_callback_count _ rfl).1 (by decide) false

/-- The descriptor record loop is the position-tagged valid-frame records:
records are emitted in frame order, carry the frame's original position in
the set, and skip invalid frames without shifting the positions of valid
ones. -/
lemma xmlRecords_enumFrom (fileId : Int) :
    ∀ (fs : List Frame) (i : Nat),
      xmlRecords fileId i fs =
        ((fs.enumFrom i).filter (fun p => p.2.valid)).map
          (fun p => xmlImageRecord fileId p.1 p.2) := by
  intro fs
  induction fs with
  | nil => intro i; rfl
  | cons f fs ih =>
    intro i
    by_cases hv : f.valid <;>
      simp [xmlRecords, hv, List.enumFrom_cons, List.filter_cons, ih (i + 1)]

/-- C5. For a set with at least one valid frame, the trace contains exactly
one descriptor write, it comes first, the descriptor is named from the set
id, its `imagecount` equals the number of valid frames, and its records
are exactly the valid frames in order tagged with their original positions
(invalid frames excluded without shifting indices), each record carrying
the image/thumbnail names derived from the set id and position, the 0/1
flash flag, the gain scaled by 100 and truncated to an integer, and the
exposure, white-balance and focus metadata. -/
theorem dump_descriptor_content (s : ImageSet) (cb : Bool)
    (h : countValid s.frames ≠ 0) :
    ∃ d : Descriptor,
      (dumpToFileSystem s cb).head? = some (WriteEvent.descriptorWrite d) ∧
      (dumpToFileSystem s cb).filter isDescriptorWrite =
        [WriteEvent.descriptorWrite d] ∧
      d.name = FileName.xml s.fileId ∧
      d.imagecount = countValid s.frames ∧
      d.records =
        ((s.frames.enum.filter (fun p => p.2.valid)).map
          (fun p => xmlImageRecord s.fileId p.1 p.2)) := by
  refine ⟨⟨FileName.xml s.fileId, countValid s.frames, xmlRecords s.fileId 0 s.frames⟩,
    ?_, ?_, rfl, rfl, ?_⟩
  · simp [dumpToFileSystem, h]
  · cases cb <;>
      simp [dumpToFileSystem, h, List.filter_cons, List.filter_append, isDescriptorWrite,
        dumpDataFiles_no_descriptor]
  · exact xmlRecords_enumFrom s.fileId s.frames 0

/-- Witness for C5 on a concrete three-frame set whose middle frame is
invalid: the surviving records keep original positions 0 and 2. -/
theorem dump_descriptor_content_witness :
    (let s : ImageSet :=
      ⟨7, [⟨true, 1, 2, 100, 5500, 2⟩, ⟨false, 0, 1, 1, 1, 1⟩, ⟨true, 0, 2, 50, 6000, 3⟩],
        [⟨EFormats.EFormatJPEG, 95⟩, ⟨EFormats.EFormatJPEG, 95⟩, ⟨EFormats.EFormatTIFF, 80⟩]⟩
     countValid s.frames ≠ 0 ∧
      ∃ d : Descriptor,
        (dumpToFileSystem s true).head? = some (WriteEvent.descriptorWrite d) ∧
        (dumpToFileSystem s true).filter isDescriptorWrite =
          [WriteEvent.descriptorWrite d] ∧
        d.name = FileName.xml s.fileId ∧
        d.imagecount = countValid s.frames ∧
        d.records =
          ((s.frames.enum.filter (fun p => p.2.valid)).map
            (fun p => xmlImageRecord s.fileId p.1 p.2))) :=
  ⟨by decide, dump_descriptor_content _ true (by decide)⟩

/-! ### DownsampleChannel: memory safety (C10) and uniform planes (C7) -/

/-- Fallible traversal of reads that all succeed, with a property of every
produced value. -/
lemma traverseOpt_forall {f : σ → Option β} (P : β → Prop) :
    ∀ l : List σ, (∀ a ∈ l, ∃ b, f a = some b ∧ P b) →
      ∃ bs, traverseOpt f l = some bs ∧ bs.length = l.length ∧ ∀ b ∈ bs, P b := by
  intro l
  induction l with
  | nil => intro _; exact ⟨[], rfl, rfl, by simp⟩
  | cons a as ih =>
    intro h
    obtain ⟨b, hb, hPb⟩ := h a (List.mem_cons_self a as)
    obtain ⟨bs, hbs, hlen, hall⟩ := ih (fun x hx => h x (List.mem_cons_of_mem a hx))
    refine ⟨b :: bs, by simp [traverseOpt, hb, hbs], by simp [hlen], ?_⟩
    intro c hc
    rcases List.mem_cons.mp hc with rfl | hc
    · exact hPb
    · exact hall c hc

/-- Fallible traversal of constant reads yields a constant list. -/
lemma traverseOpt_const {f : σ → Option β} {c : β} :
    ∀ l : List σ, (∀ a ∈ l, f a = some c) →
      traverseOpt f l = some (List.replicate l.length c) := by
  intro l
  induction l with
  | nil => intro _; rfl
  | cons a as ih =>
    intro h
    have hb := h a (List.mem_cons_self a as)
    have hbs := ih (fun x hx => h x (List.mem_cons_of_mem a hx))
    simp [traverseOpt, hb, hbs, List.replicate_succ]

/-- Fallible traversal only depends on the reads of the traversed
elements. -/
lemma traverseOpt_congr {f g : σ → Option β} :
    ∀ {l : List σ}, (∀ a ∈ l, f a = g a) → traverseOpt f l = traverseOpt g l := by
  intro l
  induction l with
  | nil => intro _; rfl
  | cons a as ih =>
    intro h
    have ha := h a (List.mem_cons_self a as)
    have has := ih (fun x hx => h x (List.mem_cons_of_mem a hx))
    simp only [traverseOpt, ha, has]

/-- Fallible traversal of a mapped list. -/
lemma traverseOpt_map {f : β → Option γ} {g : σ → β} :
    ∀ l : List σ, traverseOpt f (l.map g) = traverseOpt (fun a => f (g a)) l := by
  intro l
  induction l with
  | nil => rfl
  | cons a as ih => simp only [List.map_cons, traverseOpt, ih]

/-- Inversion: a successful traversal has one output per input, each
produced by its read. -/
lemma traverseOpt_some_inv {f : σ → Option β} :
    ∀ {l : List σ} {bs : List β}, traverseOpt f l = some bs →
      bs.length = l.length ∧ ∀ b ∈ bs, ∃ a ∈ l, f a = some b := by
  intro l
  induction l with
  | nil =>
    intro bs h
    cases h
    exact ⟨rfl, by simp⟩
  | cons a as ih =>
    intro bs h
    rcases hfa : f a with _ | b <;> rcases hrec : traverseOpt f as with _ | cs <;>
        simp only [traverseOpt, hfa, hrec] at h <;> try exact Option.noConfusion h
    cases h
    obtain ⟨hlen, hmem⟩ := ih hrec
    refine ⟨by simp [hlen], ?_⟩
    intro c hc
    rcases List.mem_cons.mp hc with rfl | hc2
    · exact ⟨a, List.mem_cons_self a as, hfa⟩
    · obtain ⟨x, hx, hfx⟩ := hmem c hc2
      exact ⟨x, List.mem_cons_of_mem a hx, hfx⟩

/-- flatMap only depends on the images of the members. -/
lemma flatMap_congr_mem {f g : σ → List β} :
    ∀ {l : List σ}, (∀ a ∈ l, f a = g a) → l.flatMap f = l.flatMap g := by
  intro l
  induction l with
  | nil => intro _; rfl
  | cons a as ih =>
    intro h
    simp only [List.flatMap_cons]
    rw [h a (List.mem_cons_self a as), ih (fun x hx => h x (List.mem_cons_of_mem a hx))]

/-- Every index of the overflow-free window is at most `base + 4*w + 4`. -/
lemma windowIdxN_le {w base : Nat} : ∀ i ∈ windowIdxN w base, i ≤ base + 4 * w + 4 := by
  intro i hi
  simp only [windowIdxN, THUMBNAIL_BLUR_RADIUS, List.mem_flatMap, List.mem_map,
    List.mem_range] at hi
  obtain ⟨y, hy, x, hx, rfl⟩ := hi
  have hyw : y * w ≤ 4 * w := Nat.mul_le_mul_right w (by omega)
  omega

/-- The window reads 25 source pixels. -/
lemma windowIdxN_length (w base : Nat) : (windowIdxN w base).length = 25 := rfl

/-- The overflow-free window sum succeeds whenever the farthest read is in
range. -/
lemma windowSumN_total (src : List Nat) (w base : Nat)
    (hb : base + 4 * w + 4 < src.length) :
    ∃ s, windowSumN src w base = some s := by
  have h : ∀ i ∈ windowIdxN w base, (src.get? i).isSome := by
    intro i hi
    have hle := windowIdxN_le i hi
    rw [List.get?_eq_getElem?, List.getElem?_eq_getElem (by omega)]
    rfl
  obtain ⟨bs, hbs, -, -⟩ := traverseOpt_forall (fun _ => True) _
    (fun i hi => ⟨_, Option.isSome_iff_exists.mp (h i hi) |>.choose_spec, trivial⟩)
  exact ⟨bs.sum, by rw [windowSumN, hbs]; rfl⟩

/-- On a uniform plane of value `V` the window sum is `25 * V`. -/
lemma windowSumN_replicate (n V w base : Nat) (hb : base + 4 * w + 4 < n) :
    windowSumN (List.replicate n V) w base = some (25 * V) := by
  have h : ∀ i ∈ windowIdxN w base, (List.replicate n V).get? i = some V := by
    intro i hi
    have hle := windowIdxN_le i hi
    rw [List.get?_eq_getElem?]
    exact List.getElem?_replicate_of_lt (by omega)
  rw [windowSumN, traverseOpt_const _ h, windowIdxN_length]
  exact congrArg some (List.sum_const_nat 25 V)

/-- A successful overflow-free window sum over a byte plane is at most
`25 * 255`. -/
lemma windowSumN_le (src : List Nat) (w base s : Nat)
    (hbytes : ∀ p ∈ src, p ≤ 255) (h : windowSumN src w base = some s) :
    s ≤ 6375 := by
  rw [windowSumN] at h
  rcases htr : traverseOpt (fun i => src.get? i) (windowIdxN w base) with _ | vs
  · rw [htr] at h
    exact absurd h (by simp)
  · rw [htr] at h
    have hs : vs.sum = s := by simpa using h
    obtain ⟨hlen, hmem⟩ := traverseOpt_some_inv htr
    have hall : ∀ v ∈ vs, v ≤ 255 := by
      intro v hv
      obtain ⟨i, -, hget⟩ := hmem v hv
      exact hbytes v (List.get?_mem hget)
    have hsum : vs.sum ≤ vs.length * 255 := by
      have := List.sum_le_card_nsmul vs 255 hall
      simpa [smul_eq_mul] using this
    rw [hlen, windowIdxN_length] at hsum
    omega

/-- The fixed-point column/row position stays at least 5 pixels short of
the source extent: for `k < D` and `S ≥ 1`,
`(k * ((S <<< 16) / D)) >>> 16 ≤ S - 1`. -/
lemma scaled_index_le (S D k : Nat) (hS : 1 ≤ S) (hk : k < D) :
    (k * ((S <<< 16) / D)) >>> 16 ≤ S - 1 := by
  rw [Nat.shiftLeft_eq, Nat.shiftRight_eq_div_pow]
  rcases Nat.eq_zero_or_pos (S * 2 ^ 16 / D) with h0 | hpos
  · rw [h0]
    simp
  · have h1 : S * 2 ^ 16 / D * D ≤ S * 2 ^ 16 := Nat.div_mul_le_self _ _
    have h2 : k * (S * 2 ^ 16 / D) < S * 2 ^ 16 := by
      have h3 : (k + 1) * (S * 2 ^ 16 / D) ≤ D * (S * 2 ^ 16 / D) :=
        Nat.mul_le_mul_right _ hk
      have h4 : D * (S * 2 ^ 16 / D) ≤ S * 2 ^ 16 := by
        rw [Nat.mul_comm]; exact h1
      have h5 : k * (S * 2 ^ 16 / D) + (S * 2 ^ 16 / D) ≤ S * 2 ^ 16 := by
        calc k * (S * 2 ^ 16 / D) + (S * 2 ^ 16 / D)
            = (k + 1) * (S * 2 ^ 16 / D) := by ring
          _ ≤ D * (S * 2 ^ 16 / D) := h3
          _ ≤ S * 2 ^ 16 := h4
      omega
    have h6 : k * (S * 2 ^ 16 / D) / 2 ^ 16 < S :=
      (Nat.div_lt_iff_lt_mul (Nat.two_pow_pos 16)).2 h2
    omega

/-- The fixed-point accumulator after `k < D` steps stays below `S <<< 16`,
hence below 2^31 for `S ≤ 32767`. -/
lemma scaled_step_bound (S D k : Nat) (hS : S ≤ 32767) (hk : k < D) :
    k * ((S <<< 16) / D) < 2147483648 := by
  have h1 : k * ((S <<< 16) / D) ≤ D * ((S <<< 16) / D) :=
    Nat.mul_le_mul_right _ (Nat.le_of_lt hk)
  have h2 : D * ((S <<< 16) / D) ≤ S <<< 16 := by
    rw [Nat.mul_comm]
    exact Nat.div_mul_le_self _ _
  have h3 : S <<< 16 = S * 65536 := by
    rw [Nat.shiftLeft_eq]
  omega

/-- Every read of output pixel `(i, j)` is strictly inside the source
plane: the base row/column offsets plus the window reach stay below
`srcWidth * srcHeight`. -/
lemma downsampleIdx_lt (srcWidth srcHeight dstWidth dstHeight i j : Nat)
    (hsw : 5 ≤ srcWidth) (hsh : 5 ≤ srcHeight)
    (hi : i < dstHeight) (hj : j < dstWidth) :
    ((i * (((srcHeight - blurRadiusEven) <<< 16) / dstHeight)) >>> 16) * srcWidth +
        ((j * (((srcWidth - blurRadiusEven) <<< 16) / dstWidth)) >>> 16) +
        4 * srcWidth + 4 < srcWidth * srcHeight := by
  have hbre : blurRadiusEven = 4 := rfl
  rw [hbre]
  have hy := scaled_index_le (srcHeight - 4) dstHeight i (by omega) hi
  have hx := scaled_index_le (srcWidth - 4) dstWidth j (by omega) hj
  have hrow : ((i * (((srcHeight - 4) <<< 16) / dstHeight)) >>> 16) * srcWidth ≤
      (srcHeight - 5) * srcWidth :=
    Nat.mul_le_mul_right srcWidth (by omega)
  have hE : (srcHeight - 5) * srcWidth + 5 * srcWidth = srcHeight * srcWidth := by
    rw [← Nat.add_mul]
    congr 1
    omega
  have hC : srcHeight * srcWidth = srcWidth * srcHeight := Nat.mul_comm _ _
  omega

/-- A whole overflow-free output row succeeds when all its window reads
are in range. -/
lemma downsampleRowN_exists (src : List Nat) (srcWidth ax rowindex dstWidth : Nat)
    (h : ∀ j, j < dstWidth →
      rowindex + ((j * ax) >>> 16) + 4 * srcWidth + 4 < src.length) :
    ∃ row, downsampleRowN src srcWidth ax rowindex dstWidth = some row ∧
      row.length = dstWidth := by
  have h2 : ∀ j ∈ List.range dstWidth,
      ∃ p, (windowSumN src srcWidth (rowindex + ((j * ax) >>> 16))).map downsamplePixelN
          = some p ∧ True := by
    intro j hj
    obtain ⟨s, hs⟩ := windowSumN_total src srcWidth _ (h j (List.mem_range.mp hj))
    exact ⟨downsamplePixelN s, by rw [hs]; rfl, trivial⟩
  obtain ⟨row, hrow, hlen, -⟩ := traverseOpt_forall (fun _ => True) _ h2
  exact ⟨row, hrow, by rw [hlen, List.length_range]⟩

/-- A whole overflow-free output row over a uniform plane is the constant
pixel `downsamplePixelN (25 * V)`. -/
lemma downsampleRowN_uniform (n V srcWidth ax rowindex dstWidth : Nat)
    (h : ∀ j, j < dstWidth →
      rowindex + ((j * ax) >>> 16) + 4 * srcWidth + 4 < n) :
    downsampleRowN (List.replicate n V) srcWidth ax rowindex dstWidth =
      some (List.replicate dstWidth (downsamplePixelN (25 * V))) := by
  have h2 : ∀ j ∈ List.range dstWidth,
      (windowSumN (List.replicate n V) srcWidth (rowindex + ((j * ax) >>> 16))).map
          downsamplePixelN = some (downsamplePixelN (25 * V)) := by
    intro j hj
    rw [windowSumN_replicate n V srcWidth _ (h j (List.mem_range.mp hj))]
    rfl
  rw [downsampleRowN, traverseOpt_const _ h2, List.length_range]

/-- `DownsampleChannelN` succeeds on any source plane of the right size
and writes exactly `dstWidth * dstHeight` pixels. -/
lemma DownsampleChannelN_total (dstWidth dstHeight srcWidth srcHeight : Nat)
    (src : List Nat) (hlen : src.length = srcWidth * srcHeight)
    (hsw : 5 ≤ srcWidth) (hsh : 5 ≤ srcHeight) :
    ∃ out, DownsampleChannelN dstWidth dstHeight src srcWidth srcHeight = some out ∧
      out.length = dstWidth * dstHeight := by
  have hrows : ∀ i ∈ List.range dstHeight,
      ∃ row, downsampleRowN src srcWidth (((srcWidth - blurRadiusEven) <<< 16) / dstWidth)
          (((i * (((srcHeight - blurRadiusEven) <<< 16) / dstHeight)) >>> 16) * srcWidth)
          dstWidth = some row ∧ row.length = dstWidth := by
    intro i hi
    apply downsampleRowN_exists
    intro j hj
    rw [hlen]
    exact downsampleIdx_lt srcWidth srcHeight dstWidth dstHeight i j hsw hsh
      (List.mem_range.mp hi) hj
  obtain ⟨rows, hrows_eq, hrows_len, hrows_all⟩ :=
    traverseOpt_forall (fun row : List Nat => row.length = dstWidth) _ hrows
  refine ⟨rows.flatten, ?_, ?_⟩
  · simp only [DownsampleChannelN]
    rw [hrows_eq]
    rfl
  · rw [List.length_flatten]
    have hmap : rows.map List.length = List.replicate rows.length dstWidth := by
      rw [List.eq_replicate_iff]
      refine ⟨by simp, ?_⟩
      intro b hb
      obtain ⟨r, hr, rfl⟩ := List.mem_map.mp hb
      exact hrows_all r hr
    rw [hmap, List.sum_const_nat, hrows_len, List.length_range, Nat.mul_comm]

/-- On a uniform plane, `DownsampleChannelN` produces the constant plane
of value `downsamplePixelN (25 * V)`. -/
lemma DownsampleChannelN_uniform_aux (dstWidth dstHeight srcWidth srcHeight V : Nat)
    (hsw : 5 ≤ srcWidth) (hsh : 5 ≤ srcHeight) :
    DownsampleChannelN dstWidth dstHeight (List.replicate (srcWidth * srcHeight) V)
        srcWidth srcHeight =
      some (List.replicate (dstHeight * dstWidth) (downsamplePixelN (25 * V))) := by
  have hconst : ∀ i ∈ List.range dstHeight,
      downsampleRowN (List.replicate (srcWidth * srcHeight) V) srcWidth
          (((srcWidth - blurRadiusEven) <<< 16) / dstWidth)
          (((i * (((srcHeight - blurRadiusEven) <<< 16) / dstHeight)) >>> 16) * srcWidth)
          dstWidth = some (List.replicate dstWidth (downsamplePixelN (25 * V))) := by
    intro i hi
    apply downsampleRowN_uniform
    intro j hj
    exact downsampleIdx_lt srcWidth srcHeight dstWidth dstHeight i j hsw hsh
      (List.mem_range.mp hi) hj
  simp only [DownsampleChannelN]
  rw [traverseOpt_const _ hconst, List.length_range]
  simp

/-- Wrapping is the identity on 32-bit-representable naturals. -/
lemma toInt32_coe (n : Nat) (h : n < 2147483648) : toInt32 (n : Int) = (n : Int) := by
  simp only [toInt32]
  omega

/-- `accum32` starts at the C initialisation `tx = 0`. -/
lemma accum32_zero (a : Int) : accum32 a 0 = 0 := by
  simp only [accum32]
  norm_num [toInt32]

/-- `accum32` steps exactly like the wrapping C addition `tx += ax`. -/
lemma accum32_succ (a : Int) (k : Nat) :
    accum32 a (k + 1) = toInt32 (accum32 a k + a) := by
  have hdist : ((k + 1 : Nat) : Int) * a = (k : Int) * a + a := by
    push_cast
    ring
  simp only [accum32, toInt32, hdist]
  omega

/-- The arithmetic shift agrees with the Nat shift on naturals. -/
lemma sar16_coe (n : Nat) : sar16 (n : Int) = ((n >>> 16 : Nat) : Int) := by
  have h16 : (2 : Nat) ^ 16 = 65536 := by norm_num
  rw [sar16, Nat.shiftRight_eq_div_pow, h16]
  exact (Int.ofNat_fdiv n 65536).symm

/-- Reading at a natural index is the plain list read. -/
lemma readU8_coe (src : List Nat) (k : Nat) : readU8 src (k : Int) = src.get? k := by
  rw [readU8, if_neg (by omega)]
  simp

/-- Below 2^31 the wrapped window indices are the overflow-free ones. -/
lemma windowIdx_coe (w base : Nat) (hb : base + 4 * w + 4 < 2147483648) :
    windowIdx (w : Int) (base : Int) =
      (windowIdxN w base).map (fun n : Nat => (n : Int)) := by
  simp only [windowIdx, windowIdxN, List.map_flatMap, List.map_map]
  apply flatMap_congr_mem
  intro y hy
  have hy4 : y ≤ 4 := by
    have := List.mem_range.mp hy
    simp only [THUMBNAIL_BLUR_RADIUS] at this
    omega
  apply List.map_congr_left
  intro x hx
  have hx4 : x ≤ 4 := by
    have := List.mem_range.mp hx
    simp only [THUMBNAIL_BLUR_RADIUS] at this
    omega
  have hyw : y * w ≤ 4 * w := Nat.mul_le_mul_right w hy4
  have h1 : (base : Int) + (y : Int) * (w : Int) = ((base + y * w : Nat) : Int) := by
    push_cast
    ring
  rw [Function.comp_apply, h1, toInt32_coe _ (by omega)]
  have h2 : ((base + y * w : Nat) : Int) + (x : Int) = ((base + y * w + x : Nat) : Int) := by
    push_cast
    ring
  rw [h2, toInt32_coe _ (by omega)]

/-- Below 2^31 the wrapped window sum is the overflow-free one. -/
lemma windowSum_coe (src : List Nat) (w base : Nat)
    (hb : base + 4 * w + 4 < 2147483648) :
    windowSum src (w : Int) (base : Int) = windowSumN src w base := by
  rw [windowSum, windowSumN, windowIdx_coe w base hb, traverseOpt_map]
  refine congrArg (Option.map List.sum) ?_
  apply traverseOpt_congr
  intro k _
  exact readU8_coe src k

/-- For byte-plane sums the wrapped pixel computation is the overflow-free
one. -/
lemma downsamplePixel_coe (s : Nat) (hs : s ≤ 6375) :
    downsamplePixel s = downsamplePixelN s := by
  have hnorm : THUMBNAIL_BLUR_NORM = 2621 := rfl
  rw [downsamplePixel, downsamplePixelN, hnorm]
  have h1 : (s : Int) * ((2621 : Nat) : Int) = ((s * 2621 : Nat) : Int) := by
    push_cast
    ring
  rw [h1, toInt32_coe _ (by omega), sar16_coe]
  omega

/-- Below 2^31 (and over byte planes) the wrapped output row is the
overflow-free one. -/
lemma downsampleRow_coe (src : List Nat) (w axN rowN dstWidth : Nat)
    (hbytes : ∀ p ∈ src, p ≤ 255)
    (htx : ∀ j, j < dstWidth → j * axN < 2147483648)
    (hb : ∀ j, j < dstWidth →
      rowN + ((j * axN) >>> 16) + 4 * w + 4 < 2147483648) :
    downsampleRow src (w : Int) (axN : Int) (rowN : Int) dstWidth =
      downsampleRowN src w axN rowN dstWidth := by
  rw [downsampleRow, downsampleRowN]
  apply traverseOpt_congr
  intro j hj
  have hjlt := List.mem_range.mp hj
  have hacc : accum32 (axN : Int) j = ((j * axN : Nat) : Int) := by
    rw [accum32]
    have h1 : (j : Int) * (axN : Int) = ((j * axN : Nat) : Int) := by
      push_cast
      ring
    rw [h1, toInt32_coe _ (htx j hjlt)]
  rw [hacc, sar16_coe]
  have hsum : (rowN : Int) + (((j * axN) >>> 16 : Nat) : Int) =
      ((rowN + ((j * axN) >>> 16) : Nat) : Int) := by
    push_cast
    ring
  rw [hsum, toInt32_coe _ (by have := hb j hjlt; omega)]
  rw [windowSum_coe src w _ (by have := hb j hjlt; omega)]
  apply Option.map_congr
  intro s hs
  exact downsamplePixel_coe s
    (windowSumN_le src w _ s hbytes (Option.mem_def.mp hs))

/-- On extents where no int computation overflows — `5 ≤ srcWidth,
srcHeight ≤ 32771` — and over a byte source plane, the embedding computes
exactly the overflow-free downsampler. -/
lemma DownsampleChannel_eq_nat (dstWidth dstHeight srcWidth srcHeight : Nat)
    (src : List Nat) (hbytes : ∀ p ∈ src, p ≤ 255)
    (hsw : 5 ≤ srcWidth) (hswU : srcWidth ≤ 32771)
    (hsh : 5 ≤ srcHeight) (hshU : srcHeight ≤ 32771) :
    DownsampleChannel dstWidth dstHeight src srcWidth srcHeight =
      DownsampleChannelN dstWidth dstHeight src srcWidth srcHeight := by
  have hbre : blurRadiusEven = 4 := rfl
  have hWb : srcWidth - blurRadiusEven ≤ 32767 := by
    rw [hbre]
    omega
  have hHb : srcHeight - blurRadiusEven ≤ 32767 := by
    rw [hbre]
    omega
  have haxc : Int.tdiv (shl16 ((srcWidth : Int) - (blurRadiusEven : Int))) (dstWidth : Int)
      = ((((srcWidth - blurRadiusEven) <<< 16) / dstWidth : Nat) : Int) := by
    have h1 : (srcWidth : Int) - (blurRadiusEven : Int) =
        ((srcWidth - blurRadiusEven : Nat) : Int) := by
      rw [hbre]
      omega
    have h2 : ((srcWidth - blurRadiusEven : Nat) : Int) * 65536 =
        (((srcWidth - blurRadiusEven) * 65536 : Nat) : Int) := by
      push_cast
      ring
    have h3 : (srcWidth - blurRadiusEven) <<< 16 = (srcWidth - blurRadiusEven) * 65536 := by
      rw [Nat.shiftLeft_eq]
    rw [shl16, h1, h2, toInt32_coe _ (by omega), h3]
    exact (Int.ofNat_tdiv _ _).symm
  have hayc : Int.tdiv (shl16 ((srcHeight : Int) - (blurRadiusEven : Int))) (dstHeight : Int)
      = ((((srcHeight - blurRadiusEven) <<< 16) / dstHeight : Nat) : Int) := by
    have h1 : (srcHeight : Int) - (blurRadiusEven : Int) =
        ((srcHeight - blurRadiusEven : Nat) : Int) := by
      rw [hbre]
      omega
    have h2 : ((srcHeight - blurRadiusEven : Nat) : Int) * 65536 =
        (((srcHeight - blurRadiusEven) * 65536 : Nat) : Int) := by
      push_cast
      ring
    have h3 : (srcHeight - blurRadiusEven) <<< 16 = (srcHeight - blurRadiusEven) * 65536 := by
      rw [Nat.shiftLeft_eq]
    rw [shl16, h1, h2, toInt32_coe _ (by omega), h3]
    exact (Int.ofNat_tdiv _ _).symm
  simp only [DownsampleChannel, DownsampleChannelN]
  rw [haxc, hayc]
  refine congrArg (Option.map List.flatten) ?_
  apply traverseOpt_congr
  intro i hi
  have hilt := List.mem_range.mp hi
  have hacc : accum32 (((((srcHeight - blurRadiusEven) <<< 16) / dstHeight : Nat) : Int)) i
      = ((i * (((srcHeight - blurRadiusEven) <<< 16) / dstHeight) : Nat) : Int) := by
    rw [accum32]
    have h1 : (i : Int) * ((((srcHeight - blurRadiusEven) <<< 16) / dstHeight : Nat) : Int)
        = ((i * (((srcHeight - blurRadiusEven) <<< 16) / dstHeight) : Nat) : Int) := by
      push_cast
      ring
    rw [h1, toInt32_coe _ (scaled_step_bound _ dstHeight i hHb hilt)]
  rw [hacc, sar16_coe]
  have hrowlt :
      ((i * (((srcHeight - blurRadiusEven) <<< 16) / dstHeight)) >>> 16) * srcWidth <
        2147483648 := by
    have h1 := scaled_index_le (srcHeight - blurRadiusEven) dstHeight i
      (by rw [hbre]; omega) hilt
    have h2 : (i * (((srcHeight - blurRadiusEven) <<< 16) / dstHeight)) >>> 16 ≤ 32766 := by
      omega
    have h3 := Nat.mul_le_mul h2 hswU
    omega
  have hrow : ((((i * (((srcHeight - blurRadiusEven) <<< 16) / dstHeight)) >>> 16 : Nat) : Int))
      * (srcWidth : Int) =
      ((((i * (((srcHeight - blurRadiusEven) <<< 16) / dstHeight)) >>> 16) * srcWidth
        : Nat) : Int) := by
    push_cast
    ring
  rw [hrow, toInt32_coe _ hrowlt]
  apply downsampleRow_coe src srcWidth _ _ dstWidth hbytes
  · intro j hj
    exact scaled_step_bound _ dstWidth j hWb hj
  · intro j hj
    have hd := downsampleIdx_lt srcWidth srcHeight dstWidth dstHeight i j hsw hsh hilt hj
    have hWH : srcWidth * srcHeight ≤ 32771 * 32771 := Nat.mul_le_mul hswU hshU
    omega

/-- Counterexample to C10 as frozen: with `srcWidth = 5`,
`srcHeight = 32772` (and `dstWidth = 1`, `dstHeight = 2`) all of the
claimed preconditions hold, yet `(srcHeight - 4) << 16` wraps to `-2^31`,
`ay` becomes negative, and row 1 reads at the negative index `-81920`:
the embedding returns `none` instead of a full destination plane. -/
theorem downsample_channel_safe_cex :
    (List.replicate (5 * 32772) (0 : Nat)).length = 5 * 32772 ∧
      (1 : Nat) ≤ 1 ∧ (1 : Nat) ≤ 2 ∧ (5 : Nat) ≤ 5 ∧ (5 : Nat) ≤ 32772 ∧
      DownsampleChannel 1 2 (List.replicate (5 * 32772) 0) 5 32772 = none := by
  refine ⟨List.length_replicate _ _, by decide, by decide, by decide, by decide, ?_⟩
  decide

/-- C10 (amended): on source extents that fit the int fixed-point
arithmetic — `5 ≤ srcWidth, srcHeight ≤ 32771` — a byte source plane of
the right size, `dstWidth, dstHeight ≥ 1` and a destination plane below
2^31 pixels (the reach of the int `dstindex`), every source read of
`DownsampleChannel` lies inside the source plane and every destination
write inside the destination plane: the Option-returning embedding
returns `some`, with exactly `dstWidth * dstHeight` pixels written. -/
theorem downsample_channel_safe (dstWidth dstHeight srcWidth srcHeight : Nat)
    (src : List Nat) (hlen : src.length = srcWidth * srcHeight)
    (hbytes : ∀ p ∈ src, p ≤ 255)
    (_hdw : 1 ≤ dstWidth) (_hdh : 1 ≤ dstHeight)
    (hsw : 5 ≤ srcWidth) (hsh : 5 ≤ srcHeight)
    (hswU : srcWidth ≤ 32771) (hshU : srcHeight ≤ 32771)
    (_hdst : dstWidth * dstHeight < 2 ^ 31) :
    ∃ out, DownsampleChannel dstWidth dstHeight src srcWidth srcHeight = some out ∧
      out.length = dstWidth * dstHeight := by
  rw [DownsampleChannel_eq_nat dstWidth dstHeight srcWidth srcHeight src hbytes
    hsw hswU hsh hshU]
  exact DownsampleChannelN_total dstWidth dstHeight srcWidth srcHeight src hlen hsw hsh

/-- Witness for C10: a 6x5 non-uniform byte plane downsampled to 3x2. -/
theorem downsample_channel_safe_witness :
    ((List.range 30).length = 6 * 5 ∧ (∀ p ∈ List.range 30, p ≤ 255) ∧
      (1 : Nat) ≤ 3 ∧ (1 : Nat) ≤ 2 ∧ (5 : Nat) ≤ 6 ∧ (5 : Nat) ≤ 5 ∧
      (6 : Nat) ≤ 32771 ∧ (5 : Nat) ≤ 32771 ∧ 3 * 2 < 2 ^ 31) ∧
    ∃ out, DownsampleChannel 3 2 (List.range 30) 6 5 = some out ∧
      out.length = 3 * 2 :=
  ⟨⟨by decide, by decide, by decide, by decide, by decide, by decide, by decide,
      by decide, by decide⟩,
    downsample_channel_safe 3 2 6 5 (List.range 30) (by decide) (by decide)
      (by decide) (by decide) (by decide) (by decide) (by decide) (by decide)
      (by decide)⟩

/-- Counterexample to C7 as frozen: the uniform plane of value 7 with
`srcWidth = 5`, `srcHeight = 32772`, `dstWidth = 1`, `dstHeight = 2`
satisfies every claimed precondition, but the wrapped `ay` sends row 1 to
a negative source index, so the embedding returns `none` rather than the
claimed uniform output plane. -/
theorem downsample_uniform_plane_cex :
    (1 : Nat) ≤ 1 ∧ (1 : Nat) ≤ 2 ∧ (5 : Nat) ≤ 5 ∧ (5 : Nat) ≤ 32772 ∧
      (7 : Nat) ≤ 255 ∧
      DownsampleChannel 1 2 (List.replicate (5 * 32772) 7) 5 32772 = none ∧
      DownsampleChannel 1 2 (List.replicate (5 * 32772) 7) 5 32772 ≠
        some (List.replicate (1 * 2) ((25 * 7 * (0x10000 / 25)) >>> 16)) := by
  refine ⟨by decide, by decide, by decide, by decide, by decide, ?_, ?_⟩
  · decide
  · decide

/-- C7 (amended): on a uniform source plane of value `V ≤ 255` with
extents that fit the int fixed-point arithmetic — `5 ≤ srcWidth,
srcHeight ≤ 32771`, `dstWidth, dstHeight ≥ 1`, destination plane below
2^31 pixels — every output pixel of `DownsampleChannel` equals
`(25 * V * (0x10000/25)) >> 16` — the output plane is uniform — and that
value is within 1 of `V`, validating the box-filter normalisation
constant. -/
theorem downsample_uniform_plane (dstWidth dstHeight srcWidth srcHeight V : Nat)
    (_hdw : 1 ≤ dstWidth) (_hdh : 1 ≤ dstHeight)
    (hsw : 5 ≤ srcWidth) (hsh : 5 ≤ srcHeight)
    (hswU : srcWidth ≤ 32771) (hshU : srcHeight ≤ 32771)
    (_hdst : dstWidth * dstHeight < 2 ^ 31)
    (hV : V ≤ 255) :
    DownsampleChannel dstWidth dstHeight (List.replicate (srcWidth * srcHeight) V)
        srcWidth srcHeight =
      some (List.replicate (dstWidth * dstHeight) ((25 * V * (0x10000 / 25)) >>> 16)) ∧
    V ≤ ((25 * V * (0x10000 / 25)) >>> 16) + 1 ∧
    ((25 * V * (0x10000 / 25)) >>> 16) ≤ V + 1 := by
  have hbytes : ∀ p ∈ List.replicate (srcWidth * srcHeight) V, p ≤ 255 := by
    intro p hp
    rw [List.eq_of_mem_replicate hp]
    exact hV
  have hnorm : (0x10000 : Nat) / 25 = 2621 := by norm_num
  have hdiv : (25 * V * 2621) >>> 16 = 65525 * V / 65536 := by
    rw [Nat.shiftRight_eq_div_pow]
    congr 1
    ring
  have hle : 65525 * V / 65536 ≤ 254 := by omega
  have hval : downsamplePixelN (25 * V) = (25 * V * (0x10000 / 25)) >>> 16 := by
    rw [hnorm, downsamplePixelN, show THUMBNAIL_BLUR_NORM = 2621 from rfl, hdiv]
    exact Nat.mod_eq_of_lt (by omega)
  refine ⟨?_, ?_, ?_⟩
  · rw [DownsampleChannel_eq_nat dstWidth dstHeight srcWidth srcHeight _ hbytes
      hsw hswU hsh hshU]
    rw [DownsampleChannelN_uniform_aux dstWidth dstHeight srcWidth srcHeight V hsw hsh,
      hval, Nat.mul_comm dstHeight dstWidth]
  · rw [hnorm, hdiv]
    omega
  · rw [hnorm, hdiv]
    omega

/-- Witness for C7: a uniform 64x64 plane of value 200 downsampled to 3x2
comes out uniform with value 199. -/
theorem downsample_uniform_plane_witness :
    ((1 : Nat) ≤ 3 ∧ (1 : Nat) ≤ 2 ∧ (5 : Nat) ≤ 64 ∧ (5 : Nat) ≤ 64 ∧
      (64 : Nat) ≤ 32771 ∧ 3 * 2 < 2 ^ 31 ∧
      (200 : Nat) ≤ 255 ∧ (25 * 200 * (0x10000 / 25)) >>> 16 = 199) ∧
    (DownsampleChannel 3 2 (List.replicate (64 * 64) 200) 64 64 =
        some (List.replicate (3 * 2) ((25 * 200 * (0x10000 / 25)) >>> 16)) ∧
      200 ≤ ((25 * 200 * (0x10000 / 25)) >>> 16) + 1 ∧
      ((25 * 200 * (0x10000 / 25)) >>> 16) ≤ 200 + 1) :=
  ⟨⟨by decide, by decide, by decide, by decide, by decide, by decide, by decide,
      by decide⟩,
    downsample_uniform_plane 3 2 64 64 200 (by decide) (by decide) (by decide)
      (by decide) (by decide) (by decide) (by decide) (by decide)⟩

end FCamSpec
